import Mathlib

/-!
Verification of the invoice-redaction review dashboard client
(`src/invoice_redaction/frontend/app.js`).

The development shallowly embeds the client-side logic of `app.js`:

* JavaScript string/number primitives used by the code (`String(n)`,
  `padStart`, `split`, `pop`, `slice(0,-1)`, `join`) are modelled over
  `String`/`List Char`;
* the DOM regions written by the renderers are modelled structurally: a
  region holds either a placeholder message or the list of painted items;
* `loadReport` and the upload submit handler are modelled as state
  transformers over an explicit `AppState`, parametrised by the outcome of
  the network request (`fetch` is the only effect);
* JavaScript object key ordering (integer-like keys first, ascending, then
  string keys in insertion order) is modelled explicitly, since
  `renderSummary` iterates `Object.entries` of a plain object.
-/

set_option maxRecDepth 4000

/-! ## JavaScript number-to-string conversion

`String(n)` on a non-negative integer produces its decimal numeral.  The
digit list is computed with explicit fuel so that it reduces structurally. -/

/-- Decimal digits of `n`, most significant first, using `fuel` as a
structural recursion bound (any `fuel > n` is enough). -/
def decDigitsAux : Nat → Nat → List Char
  | 0, _ => []
  | fuel + 1, n =>
    if n < 10 then [Nat.digitChar n]
    else decDigitsAux fuel (n / 10) ++ [Nat.digitChar (n % 10)]

/-- Decimal digit list of `n`, most significant first. -/
def decDigits (n : Nat) : List Char :=
  decDigitsAux (n + 1) n

/-- JavaScript `String(n)` for a non-negative integer `n`: its decimal
numeral. -/
def decStr (n : Nat) : String :=
  String.mk (decDigits n)

/-- JavaScript `s.padStart(3, "0")`: a no-op when `s` already has at least
3 characters, otherwise prepend zeros up to length 3
(source: `app.js` line 13). -/
def padStart3Zero (s : String) : String :=
  if 3 ≤ s.length then s
  else String.mk (List.replicate (3 - s.length) '0') ++ s

/-- `formatPage` from `app.js` line 13:
`(page) => String(page).padStart(3, "0")`. -/
def formatPage (page : Nat) : String :=
  padStart3Zero (decStr page)

/-! ## JavaScript single-character `split`, `pop`, `slice(0,-1)`, `join` -/

/-- JavaScript `str.split(c)` for a single-character separator, over the
character list: always returns a non-empty list of (possibly empty)
segments. -/
def splitOnChar (c : Char) : List Char → List (List Char)
  | [] => [[]]
  | a :: rest =>
    match splitOnChar c rest with
    | [] => [[]]
    | s :: ss => if a = c then [] :: s :: ss else (a :: s) :: ss

/-- The mirror of `Array.prototype.join(c)` over character lists. -/
def joinChars (c : Char) : List (List Char) → List Char
  | [] => []
  | p :: ps => ps.foldl (fun acc q => acc ++ c :: q) p

/-- JavaScript `s.split(sep)` for a single-character `sep`, returning
strings. -/
def jsSplit (sep : Char) (s : String) : List String :=
  (splitOnChar sep s.data).map String.mk

/-- JavaScript `parts.join(sep)`. -/
def jsJoin (sep : String) : List String → String
  | [] => ""
  | p :: ps => ps.foldl (fun acc q => acc ++ sep ++ q) p

/-! ## Path Deriver (`app.js` lines 1-18) -/

/-- The `IMAGE_ROOT` constant (`app.js` line 3). -/
def IMAGE_ROOT : String := "/out/redacted_images"

/-- `filePath.split("/").pop()`: the final path segment. -/
def lastSegment (filePath : String) : String :=
  (jsSplit '/' filePath).getLastD ""

/-- The stem computed by `buildImagePath` (`app.js` line 16):
`filePath.split("/").pop().split(".").slice(0, -1).join(".")`. -/
def stemOf (filePath : String) : String :=
  jsJoin "." ((jsSplit '.' (lastSegment filePath)).dropLast)

/-- The final `.`-separated piece of the last path segment: the text after
the segment's last dot (the spec's "final extension"), the whole segment
when it has no dot. -/
def lastExt (filePath : String) : String :=
  (jsSplit '.' (lastSegment filePath)).getLastD ""

/-- `buildImagePath` from `app.js` lines 15-18:
`` `${IMAGE_ROOT}/${stem}_${formatPage(page)}.png` ``. -/
def buildImagePath (filePath : String) (page : Nat) : String :=
  IMAGE_ROOT ++ "/" ++ stemOf filePath ++ "_" ++ formatPage page ++ ".png"

/-! ## Data model (spec section 3, exactly the fields `app.js` reads) -/

/-- One sensitive-data finding of a report entry. -/
structure Detection where
  type : String
  text_sample : String
  confidence : Float
deriving Repr

/-- One report record per processed page, as served by `GET /api/report`. -/
structure ReportEntry where
  file : String
  page : Nat
  language : String
  image_path : Option String := none
  detections : List Detection := []
deriving Repr

/-- One gallery card: the `div.card` painted by `renderGallery`
(`app.js` lines 27-35), i.e. its image source and its label. -/
structure Card where
  imagePath : String
  label : String
deriving Repr, DecidableEq

/-- One detections-table `tr` (`app.js` lines 68-79): the six cell values.
The `confidence` cell is displayed through `toFixed(2)`; the region is
modelled structurally, holding the cell's value. -/
structure Row where
  file : String
  page : Nat
  language : String
  type : String
  text_sample : String
  confidence : Float
deriving Repr

/-- A DOM render region: after a repaint it holds either a single
placeholder message or the list of painted items. -/
inductive Region (α : Type) where
  | message (text : String)
  | items (xs : List α)
deriving Repr, DecidableEq

/-! ## The summary's per-type counts and JS object key order -/

/-- One step of the `reduce` in `renderSummary` (`app.js` lines 43-46):
`acc[t] = (acc[t] || 0) + 1` on a plain object — update in place when the
key exists, append otherwise. -/
def bumpCount : List (String × Nat) → String → List (String × Nat)
  | [], t => [(t, 1)]
  | (k, c) :: rest, t =>
    if k = t then (k, c + 1) :: rest else (k, c) :: bumpCount rest t

/-- The per-type counts object built by `renderSummary` from the flattened
detection stream, as an insertion-ordered association list. -/
def countsOf (detections : List Detection) : List (String × Nat) :=
  detections.foldl (fun acc d => bumpCount acc d.type) []

/-- The count stored under key `t` (0 when the key is absent). -/
def lookupCount (t : String) : List (String × Nat) → Nat
  | [] => 0
  | (k, c) :: rest => if k = t then c else lookupCount t rest

/-- Numeric value of a digit string (no validation). -/
def digitsToNat (l : List Char) : Nat :=
  l.foldl (fun n c => n * 10 + (c.toNat - 48)) 0

/-- An ECMAScript array-index property key: a canonical base-10 numeral
(checked by the round trip through `decStr`) whose value is below
2^32 - 1.  `Object.entries` lists such keys first, in ascending numeric
order, before the string keys in insertion order. -/
def isArrayIndex (s : String) : Bool :=
  !s.data.isEmpty && s.data.all (fun c => c.isDigit)
    && (decStr (digitsToNat s.data) == s) && (digitsToNat s.data < 4294967295)

/-- Numeric value of an entry's key, used to order array-index keys. -/
def keyNum (p : String × Nat) : Nat := digitsToNat p.1.data

/-- Insert into a list sorted ascending by `keyNum`. -/
def insertByKeyNum (p : String × Nat) : List (String × Nat) → List (String × Nat)
  | [] => [p]
  | q :: qs => if keyNum p ≤ keyNum q then p :: q :: qs else q :: insertByKeyNum p qs

/-- Insertion sort ascending by `keyNum`. -/
def sortByKeyNum (l : List (String × Nat)) : List (String × Nat) :=
  l.foldr insertByKeyNum []

/-- `Object.entries` of a plain JS object whose insertion-ordered pairs
are `pairs`: array-index keys first in ascending numeric order, then the
remaining keys in insertion order (ECMAScript OrdinaryOwnPropertyKeys). -/
def jsObjectEntries (pairs : List (String × Nat)) : List (String × Nat) :=
  sortByKeyNum (pairs.filter fun p => isArrayIndex p.1)
    ++ pairs.filter fun p => !isArrayIndex p.1

/-- Pill text `` `${type}: ${count}` `` (`app.js` line 51). -/
def pillText (p : String × Nat) : String :=
  p.1 ++ ": " ++ decStr p.2

/-! ## Renderer (`app.js` lines 20-86)

Each render operation receives the region's prior content and repaints it
from scratch (the source first assigns `innerHTML = ""`), so the result
never depends on the prior content. -/

/-- `renderGallery` (`app.js` lines 20-36). -/
def renderGallery (pages : List Card) (_prior : Region Card) : Region Card :=
  if pages.isEmpty then Region.message "No redacted pages found."
  else Region.items pages

/-- The row painted for one detection (`app.js` lines 69-77). -/
def mkRow (entry : ReportEntry) (d : Detection) : Row :=
  { file := entry.file, page := entry.page, language := entry.language,
    type := d.type, text_sample := d.text_sample, confidence := d.confidence }

/-- `renderDetections` (`app.js` lines 56-86): skips entries with no
detections, appends one row per detection, and substitutes the placeholder
row when nothing was appended. -/
def renderDetections (entries : List ReportEntry) (_prior : Region Row) : Region Row :=
  if entries.isEmpty then Region.message "No detections in report."
  else
    let rows := entries.flatMap fun entry =>
      if entry.detections.isEmpty then []
      else entry.detections.map (mkRow entry)
    if rows.isEmpty then Region.message "No detections in report."
    else Region.items rows

/-- `renderSummary` (`app.js` lines 38-54): clears the region, returns on
an empty stream, otherwise paints one pill per `Object.entries` entry of
the counts object. -/
def renderSummary (detections : List Detection) (_prior : List String) : List String :=
  if detections.isEmpty then []
  else (jsObjectEntries (countsOf detections)).map pillText

/-! ## Report Transformer and Report Loader (`app.js` lines 88-117) -/

/-- `entry.image_path || buildImagePath(entry.file, entry.page)`
(`app.js` line 102): the server-supplied path when present and non-empty
(JS truthiness), else the derived one. -/
def cardImagePath (entry : ReportEntry) : String :=
  match entry.image_path with
  | some p => if p = "" then buildImagePath entry.file entry.page else p
  | none => buildImagePath entry.file entry.page

/-- The card built for one entry (`app.js` lines 101-104). -/
def mkCard (entry : ReportEntry) : Card :=
  { imagePath := cardImagePath entry,
    label := lastSegment entry.file ++ " · Page " ++ decStr entry.page }

/-- The `entries.map` of `loadReport` (`app.js` lines 101-104). -/
def entriesToPages (entries : List ReportEntry) : List Card :=
  entries.map mkCard

/-- Outcome of the `GET /api/report` fetch as observed by `loadReport`:
a network error, or a response with a success flag and a body that either
parses into a report or fails (the `Except` error carries the thrown
message, which `loadReport` ignores). -/
inductive ReportFetch where
  | networkError (msg : String)
  | response (ok : Bool) (body : Except String (List ReportEntry))

/-- Whether the retrieval attempt takes the catch path of `loadReport`. -/
def ReportFetch.isFailure : ReportFetch → Bool
  | .networkError _ => true
  | .response false _ => true
  | .response true (.error _) => true
  | .response true (.ok _) => false

/-- The mutable page state written by `app.js`: the three render regions,
the upload status line, and the file input's value. -/
structure AppState where
  gallery : Region Card
  detections : Region Row
  summary : List String
  uploadStatus : String
  fileValue : String

/-- `loadReport` (`app.js` lines 88-117) as a state transformer over the
outcome of its single fetch: paint the loading placeholders and clear the
summary, then either render the three view models or paint the error
placeholders (the catch handles network errors, non-success statuses and
malformed bodies identically). -/
def loadReport (fetch : ReportFetch) (st : AppState) : AppState :=
  let st1 : AppState :=
    { st with gallery := Region.message "Loading redacted pages…",
              detections := Region.message "Loading detections…",
              summary := [] }
  match fetch with
  | .networkError _ =>
    { st1 with
        gallery := Region.message "Unable to load report. Upload invoices to start.",
        detections := Region.message "Report not available." }
  | .response ok body =>
    if ok then
      match body with
      | .ok entries =>
        let pages := entriesToPages entries
        let st2 := { st1 with gallery := renderGallery pages st1.gallery }
        let st3 := { st2 with detections := renderDetections entries st2.detections }
        let allDetections := entries.flatMap fun entry => entry.detections
        { st3 with summary := renderSummary allDetections st3.summary }
      | .error _ =>
        { st1 with
            gallery := Region.message "Unable to load report. Upload invoices to start.",
            detections := Region.message "Report not available." }
    else
      { st1 with
          gallery := Region.message "Unable to load report. Upload invoices to start.",
          detections := Region.message "Report not available." }

/-- The Error state the spec prescribes after a failed report load: fixed
gallery and detections placeholders, summary cleared, everything else
untouched. -/
def reportFailureView (st : AppState) : AppState :=
  { st with
      gallery := Region.message "Unable to load report. Upload invoices to start.",
      detections := Region.message "Report not available.",
      summary := [] }

/-! ## Upload Controller (`app.js` lines 119-146) -/

/-- The JSON object of the `POST /api/upload` response body; both fields
are optional. -/
structure UploadBody where
  error : Option String := none
  pages : Option Nat := none

/-- Outcome of the upload POST as observed by the submit handler. -/
inductive UploadFetch where
  | networkError (msg : String)
  | response (ok : Bool) (body : Except String UploadBody)

/-- JS template interpolation of a value that may be `undefined`. -/
def pagesText : Option Nat → String
  | some n => decStr n
  | none => "undefined"

/-- JS `v || fallback` for an optional string field: the fallback replaces
a missing field and an empty (falsy) string. -/
def jsOr (v : Option String) (fallback : String) : String :=
  match v with
  | some s => if s = "" then fallback else s
  | none => fallback

/-- Result of one submit: the final page state, the number of upload POSTs
issued and the number of `loadReport` invocations. -/
structure SubmitResult where
  state : AppState
  posts : Nat
  reloads : Nat

/-- The `uploadForm` submit handler (`app.js` lines 119-146), parametrised
by the selected files, the POST's outcome and the outcome of the report
fetch a successful upload triggers.  `response.json()` rejecting is the
`Except.error` case; its message is what the catch-all then displays. -/
def uploadSubmit (files : List String) (fetch : UploadFetch)
    (reload : ReportFetch) (st : AppState) : SubmitResult :=
  if files.isEmpty then
    ⟨{ st with uploadStatus := "Please select a file to upload." }, 0, 0⟩
  else
    let st1 := { st with uploadStatus := "Uploading and processing…" }
    match fetch with
    | .networkError msg =>
      ⟨{ st1 with uploadStatus := "Error: " ++ msg }, 1, 0⟩
    | .response ok body =>
      if ok then
        match body with
        | .error msg =>
          ⟨{ st1 with uploadStatus := "Error: " ++ msg }, 1, 0⟩
        | .ok data =>
          let st2 := { st1 with
            uploadStatus := "Processed " ++ pagesText data.pages ++ " page(s).",
            fileValue := "" }
          ⟨loadReport reload st2, 1, 1⟩
      else
        match body with
        | .error msg =>
          ⟨{ st1 with uploadStatus := "Error: " ++ msg }, 1, 0⟩
        | .ok data =>
          ⟨{ st1 with uploadStatus := "Error: " ++ jsOr data.error "Upload failed" }, 1, 0⟩

/-! ## Definitions taken from the spec's wording, for comparison -/

/-- Modelled from the spec: `page` zero-padded to 3 digits, as the spec
words the padding for `page` in [0, 999]. -/
def zeroPad3 (page : Nat) : String :=
  if page < 10 then "00" ++ decStr page
  else if page < 100 then "0" ++ decStr page
  else decStr page

/-- C1's claimed stem, following the claim's wording: the final segment
with exactly its last `.`-extension removed, and the WHOLE segment when it
contains no dot. -/
def claimStemC1 (filePath : String) : String :=
  let seg := lastSegment filePath
  if '.' ∈ seg.data then
    String.mk (((seg.data.reverse.dropWhile fun c => c ≠ '.').drop 1).reverse)
  else seg

/-- The image path C1 claims `buildImagePath` returns. -/
def claimImagePathC1 (filePath : String) (page : Nat) : String :=
  IMAGE_ROOT ++ "/" ++ claimStemC1 filePath ++ "_" ++ zeroPad3 page ++ ".png"

/-- The spec's first-seen order: the distinct elements of a stream in the
order of their first occurrence. -/
def firstSeen (l : List String) : List String :=
  l.foldl (fun ks t => if t ∈ ks then ks else ks ++ [t]) []

/-- A sample prior page state used to instantiate theorems with
hypotheses. -/
def sampleState : AppState :=
  { gallery := Region.items [{ imagePath := "/out/redacted_images/old_001.png",
                               label := "old.pdf · Page 1" }],
    detections := Region.message "No detections in report.",
    summary := ["EMAIL: 1"],
    uploadStatus := "",
    fileValue := "inv.pdf" }

/-- The detection stream refuting C3's order clause: the second type is a
numeric string, which JS object key ordering hoists to the front. -/
def cexDets : List Detection :=
  [{ type := "B", text_sample := "x", confidence := 0.5 },
   { type := "2", text_sample := "y", confidence := 0.5 }]

/-- Scenario C's detection stream: EMAIL, EMAIL, SSN. -/
def scenarioCDets : List Detection :=
  [{ type := "EMAIL", text_sample := "a@b", confidence := 0.9 },
   { type := "EMAIL", text_sample := "c@d", confidence := 0.8 },
   { type := "SSN", text_sample := "123-xx", confidence := 0.7 }]

/-- Number of detection rows present in the detections region (the
placeholder row is not a detection row). -/
def rowCount : Region Row → Nat
  | Region.message _ => 0
  | Region.items rs => rs.length

/-! ### Length bounds for decimal numerals -/

theorem length_decDigitsAux_pos (fuel n : Nat) (hn : n < fuel) :
    1 ≤ (decDigitsAux fuel n).length := by
  cases fuel with
  | zero => omega
  | succ fuel =>
    by_cases h10 : n < 10
    · simp [decDigitsAux, h10]
    · simp [decDigitsAux, h10]

theorem length_decDigitsAux_lower (fuel : Nat) :
    ∀ k n, n < fuel → 10 ^ k ≤ n → k + 1 ≤ (decDigitsAux fuel n).length := by
  induction fuel with
  | zero => intro k n h _; omega
  | succ fuel ih =>
    intro k n hn hk
    by_cases h10 : n < 10
    · have hk0 : k = 0 := by
        by_contra hne
        have h1 : (10 : Nat) = 10 ^ 1 := (pow_one 10).symm
        have : (10 : Nat) ^ 1 ≤ 10 ^ k := Nat.pow_le_pow_right (by omega) (by omega)
        omega
      subst hk0
      simp [decDigitsAux, h10]
    · have hrec : decDigitsAux (fuel + 1) n
          = decDigitsAux fuel (n / 10) ++ [Nat.digitChar (n % 10)] := by
        simp [decDigitsAux, h10]
      rw [hrec, List.length_append]
      have hdivlt : n / 10 < fuel := by
        have : n / 10 < n := Nat.div_lt_self (by omega) (by omega)
        omega
      cases k with
      | zero => simp
      | succ k =>
        have hdiv : 10 ^ k ≤ n / 10 := by
          rw [Nat.le_div_iff_mul_le (by omega : (0:Nat) < 10)]
          calc 10 ^ k * 10 = 10 ^ (k + 1) := by ring
            _ ≤ n := hk
        have := ih k (n / 10) hdivlt hdiv
        simp only [List.length_cons, List.length_nil]
        omega

theorem length_decDigitsAux_upper (fuel : Nat) :
    ∀ k n, n < fuel → 1 ≤ k → n < 10 ^ k → (decDigitsAux fuel n).length ≤ k := by
  induction fuel with
  | zero => intro k n h _ _; omega
  | succ fuel ih =>
    intro k n hn hk1 hk
    by_cases h10 : n < 10
    · simp [decDigitsAux, h10]; omega
    · have hrec : decDigitsAux (fuel + 1) n
          = decDigitsAux fuel (n / 10) ++ [Nat.digitChar (n % 10)] := by
        simp [decDigitsAux, h10]
      rw [hrec, List.length_append]
      have hdivlt : n / 10 < fuel := by
        have : n / 10 < n := Nat.div_lt_self (by omega) (by omega)
        omega
      have hk2 : 2 ≤ k := by
        by_contra hlt
        have hk1' : k = 1 := by omega
        subst hk1'
        simp at hk
        omega
      have hdiv : n / 10 < 10 ^ (k - 1) := by
        have h1 : n < 10 * 10 ^ (k - 1) := by
          have h2 : 10 * 10 ^ (k - 1) = 10 ^ k := by
            have h3 : k - 1 + 1 = k := by omega
            calc 10 * 10 ^ (k - 1) = 10 ^ (k - 1 + 1) := by ring
              _ = 10 ^ k := by rw [h3]
          omega
        exact Nat.div_lt_of_lt_mul h1
      have := ih (k - 1) (n / 10) hdivlt (by omega) hdiv
      simp only [List.length_cons, List.length_nil]
      omega

theorem length_decStr_lower (k n : Nat) (h : 10 ^ k ≤ n) :
    k + 1 ≤ (decStr n).length :=
  length_decDigitsAux_lower (n + 1) k n (Nat.lt_succ_self n) h

theorem length_decStr_upper (k n : Nat) (hk : 1 ≤ k) (h : n < 10 ^ k) :
    (decStr n).length ≤ k :=
  length_decDigitsAux_upper (n + 1) k n (Nat.lt_succ_self n) hk h

theorem splitOnChar_ne_nil (c : Char) (l : List Char) : splitOnChar c l ≠ [] := by
  cases l with
  | nil => simp [splitOnChar]
  | cons a rest =>
    simp only [splitOnChar]
    cases h : splitOnChar c rest with
    | nil => simp
    | cons s ss =>
      by_cases hac : a = c <;> simp [hac]

theorem splitOnChar_not_mem (c : Char) (l : List Char) (h : c ∉ l) :
    splitOnChar c l = [l] := by
  induction l with
  | nil => rfl
  | cons a rest ih =>
    have hac : a ≠ c := by intro he; exact h (he ▸ List.mem_cons_self a rest)
    have hrest : c ∉ rest := fun hm => h (List.mem_cons_of_mem a hm)
    simp only [splitOnChar, ih hrest]
    simp [hac]

theorem splitOnChar_mem_length (c : Char) (l : List Char) (h : c ∈ l) :
    2 ≤ (splitOnChar c l).length := by
  induction l with
  | nil => simp at h
  | cons a rest ih =>
    simp only [splitOnChar]
    cases hr : splitOnChar c rest with
    | nil => exact absurd hr (splitOnChar_ne_nil c rest)
    | cons s ss =>
      by_cases hac : a = c
      · simp [hac]
      · have hm : c ∈ rest := by
          rcases List.mem_cons.mp h with h1 | h2
          · exact absurd h1.symm hac
          · exact h2
        have := ih hm
        rw [hr] at this
        simp only [List.length_cons] at this ⊢
        simp [hac]
        omega

theorem foldl_join_pull (c : Char) (ps : List (List Char)) :
    ∀ p q : List Char,
      ps.foldl (fun acc r => acc ++ c :: r) (p ++ q)
        = p ++ ps.foldl (fun acc r => acc ++ c :: r) q := by
  induction ps with
  | nil => intro p q; rfl
  | cons r rs ih =>
    intro p q
    simp only [List.foldl_cons]
    rw [List.append_assoc]
    exact ih p (q ++ c :: r)

theorem splitOnChar_cons (c a : Char) (rest : List Char) :
    splitOnChar c (a :: rest)
      = match splitOnChar c rest with
        | [] => [[]]
        | s :: ss => if a = c then [] :: s :: ss else (a :: s) :: ss := rfl

theorem joinChars_splitOnChar (c : Char) (l : List Char) :
    joinChars c (splitOnChar c l) = l := by
  induction l with
  | nil => rfl
  | cons a rest ih =>
    cases hr : splitOnChar c rest with
    | nil => exact absurd hr (splitOnChar_ne_nil c rest)
    | cons s ss =>
      rw [hr] at ih
      simp only [splitOnChar_cons, hr]
      by_cases hac : a = c
      · rw [if_pos hac]
        simp only [joinChars, List.foldl_cons, List.nil_append]
        have h2 : (c :: s : List Char) = [c] ++ s := rfl
        rw [h2, foldl_join_pull]
        simp only [joinChars] at ih
        rw [ih, hac]
        rfl
      · rw [if_neg hac]
        simp only [joinChars, List.foldl_cons]
        have h2 : (a :: s : List Char) = [a] ++ s := rfl
        rw [h2, foldl_join_pull]
        simp only [joinChars] at ih
        rw [ih]
        rfl

theorem joinChars_append_last (c : Char) (ps : List (List Char)) :
    ∀ p last : List Char,
      joinChars c (p :: (ps ++ [last])) = joinChars c (p :: ps) ++ c :: last := by
  induction ps with
  | nil => intro p last; simp [joinChars]
  | cons q qs ih =>
    intro p last
    simp only [joinChars, List.cons_append, List.foldl_cons]
    have h1 := ih (p ++ c :: q) last
    simp only [joinChars] at h1
    exact h1

theorem getLastD_irrel {α : Type} (ps : List α) (x y : α) (h : ps ≠ []) :
    ps.getLastD x = ps.getLastD y := by
  cases ps with
  | nil => exact absurd rfl h
  | cons a l =>
    cases l with
    | nil => rfl
    | cons b m =>
      exact (List.getLastD_cons x a (b :: m)).trans (List.getLastD_cons y a (b :: m)).symm

theorem getLastD_map {α β : Type} (f : α → β) (l : List α) (d : α) :
    (l.map f).getLastD (f d) = f (l.getLastD d) := by
  induction l generalizing d with
  | nil => rfl
  | cons a t ih =>
    simp only [List.map_cons, List.getLastD_cons]
    exact ih a

/-- No occurrence of the separator survives in the last segment of a
split. -/
theorem splitOnChar_last_not_mem (c : Char) (l : List Char) :
    c ∉ (splitOnChar c l).getLastD [] := by
  induction l with
  | nil => simp [splitOnChar]
  | cons a rest ih =>
    cases hr : splitOnChar c rest with
    | nil => exact absurd hr (splitOnChar_ne_nil c rest)
    | cons s ss =>
      rw [hr] at ih
      simp only [splitOnChar_cons, hr]
      by_cases hac : a = c
      · rw [if_pos hac, List.getLastD_cons]
        exact ih
      · rw [if_neg hac]
        cases ss with
        | nil =>
          rw [List.getLastD_cons] at ih ⊢
          rw [List.getLastD_nil] at ih ⊢
          intro hmem
          rcases List.mem_cons.mp hmem with h1 | h2
          · exact hac h1.symm
          · exact ih h2
        | cons t ts =>
          rw [List.getLastD_cons] at ih ⊢
          rw [getLastD_irrel (t :: ts) (a :: s) s (by simp)]
          exact ih

/-! ### String-level bridges -/

theorem str_data_inj {s t : String} (h : s.data = t.data) : s = t := by
  cases s
  cases t
  exact congrArg String.mk h

theorem dropLast_append_getLastD {α : Type} :
    ∀ ps : List α, ps ≠ [] → ∀ d, ps.dropLast ++ [ps.getLastD d] = ps := by
  intro ps
  induction ps with
  | nil => intro h; exact absurd rfl h
  | cons a l ih =>
    intro _ d
    cases l with
    | nil => rfl
    | cons b m =>
      rw [List.getLastD_cons]
      have h1 : (a :: b :: m : List α).dropLast = a :: (b :: m).dropLast := rfl
      rw [h1, List.cons_append, ih (by simp) a]

theorem jsJoin_foldl_data (ps : List (List Char)) :
    ∀ acc : String,
      ((ps.map String.mk).foldl (fun a q => a ++ "." ++ q) acc).data
        = ps.foldl (fun a q => a ++ '.' :: q) acc.data := by
  induction ps with
  | nil => intro acc; rfl
  | cons q qs ih =>
    intro acc
    simp only [List.map_cons, List.foldl_cons]
    rw [ih (acc ++ "." ++ String.mk q)]
    congr 1
    rw [String.data_append, String.data_append]
    simp

theorem jsJoin_data (ps : List (List Char)) :
    (jsJoin "." (ps.map String.mk)).data = joinChars '.' ps := by
  cases ps with
  | nil => rfl
  | cons p qs =>
    simp only [List.map_cons, jsJoin, joinChars]
    exact jsJoin_foldl_data qs (String.mk p)

theorem stemOf_no_dot (filePath : String)
    (h : '.' ∉ (lastSegment filePath).data) : stemOf filePath = "" := by
  unfold stemOf jsSplit
  rw [splitOnChar_not_mem '.' _ h]
  rfl

theorem lastExt_data (filePath : String) :
    (lastExt filePath).data
      = (splitOnChar '.' (lastSegment filePath).data).getLastD [] := by
  unfold lastExt jsSplit
  have h1 : ("" : String) = String.mk [] := rfl
  rw [h1, getLastD_map String.mk _ []]

theorem stemOf_data (filePath : String) :
    (stemOf filePath).data
      = joinChars '.' (splitOnChar '.' (lastSegment filePath).data).dropLast := by
  unfold stemOf jsSplit
  rw [← List.map_dropLast]
  exact jsJoin_data _

/-- When the final path segment contains a dot, the code's stem is the
segment with exactly its final extension removed: the segment decomposes
as `stem ++ "." ++ ext` with a dot-free `ext`. -/
theorem stemOf_decomp (filePath : String)
    (h : '.' ∈ (lastSegment filePath).data) :
    lastSegment filePath = stemOf filePath ++ "." ++ lastExt filePath ∧
    '.' ∉ (lastExt filePath).data := by
  have hnotin : '.' ∉ (lastExt filePath).data := by
    rw [lastExt_data]
    exact splitOnChar_last_not_mem '.' (lastSegment filePath).data
  refine ⟨?_, hnotin⟩
  apply str_data_inj
  rw [String.data_append, String.data_append, stemOf_data, lastExt_data]
  cases hp : splitOnChar '.' (lastSegment filePath).data with
  | nil => exact absurd hp (splitOnChar_ne_nil _ _)
  | cons p ps =>
    have hlen : 2 ≤ (splitOnChar '.' (lastSegment filePath).data).length :=
      splitOnChar_mem_length '.' _ h
    rw [hp] at hlen
    have hps : ps ≠ [] := by
      cases ps with
      | nil => simp at hlen
      | cons b m => simp
    have hround : joinChars '.' (p :: ps) = (lastSegment filePath).data := by
      rw [← hp]
      exact joinChars_splitOnChar '.' _
    have hdrop : (p :: ps).dropLast = p :: ps.dropLast := by
      cases ps with
      | nil => exact absurd rfl hps
      | cons b m => rfl
    have hlast : (p :: ps).getLastD [] = ps.getLastD p := List.getLastD_cons [] p ps
    have hsplit : ps.dropLast ++ [ps.getLastD p] = ps :=
      dropLast_append_getLastD ps hps p
    have hjoin : joinChars '.' (p :: ps)
        = joinChars '.' (p :: ps.dropLast) ++ '.' :: ps.getLastD p := by
      conv_lhs => rw [← hsplit]
      exact joinChars_append_last '.' ps.dropLast p (ps.getLastD p)
    rw [hdrop, hlast, ← hround, hjoin]
    have hdot : ("." : String).data = ['.'] := rfl
    rw [hdot]
    simp

/-! ### Padding facts -/

theorem length_decStr_pos (n : Nat) : 1 ≤ (decStr n).length :=
  length_decDigitsAux_pos (n + 1) n (Nat.lt_succ_self n)

theorem formatPage_eq_zeroPad3 (n : Nat) (h : n ≤ 999) :
    formatPage n = zeroPad3 n := by
  have p1 : (10 : Nat) ^ 1 = 10 := by norm_num
  have p2 : (10 : Nat) ^ 2 = 100 := by norm_num
  have p3 : (10 : Nat) ^ 3 = 1000 := by norm_num
  rcases Nat.lt_or_ge n 10 with h10 | h10
  · have hl : (decStr n).length = 1 := by
      have h1 := length_decStr_pos n
      have h2 := length_decStr_upper 1 n (by omega) (by omega)
      omega
    unfold formatPage padStart3Zero zeroPad3
    rw [hl, if_neg (by omega), if_pos h10]
    rw [(by decide : String.mk (List.replicate (3 - 1) '0') = "00")]
  · rcases Nat.lt_or_ge n 100 with h100 | h100
    · have hl : (decStr n).length = 2 := by
        have h1 := length_decStr_lower 1 n (by omega)
        have h2 := length_decStr_upper 2 n (by omega) (by omega)
        omega
      unfold formatPage padStart3Zero zeroPad3
      rw [hl, if_neg (by omega), if_neg (by omega), if_pos h100]
      rw [(by decide : String.mk (List.replicate (3 - 2) '0') = "0")]
    · have hl : (decStr n).length = 3 := by
        have h1 := length_decStr_lower 2 n (by omega)
        have h2 := length_decStr_upper 3 n (by omega) (by omega)
        omega
      unfold formatPage padStart3Zero zeroPad3
      rw [hl, if_pos (by omega), if_neg (by omega), if_neg (by omega)]

/-! ### Counting lemmas for the summary -/

theorem map_fst_bumpCount (acc : List (String × Nat)) (t : String) :
    (bumpCount acc t).map Prod.fst
      = if t ∈ acc.map Prod.fst then acc.map Prod.fst
        else acc.map Prod.fst ++ [t] := by
  induction acc with
  | nil => simp [bumpCount]
  | cons p rest ih =>
    obtain ⟨k, c⟩ := p
    by_cases hk : k = t
    · subst hk
      simp [bumpCount]
    · have hkt : t ≠ k := fun he => hk he.symm
      simp only [bumpCount, if_neg hk, List.map_cons]
      rw [ih]
      by_cases hm : t ∈ rest.map Prod.fst
      · rw [if_pos hm, if_pos (by simp [List.mem_cons, hm])]
      · rw [if_neg hm, if_neg (by simp [List.mem_cons, hm, hkt])]
        simp

theorem map_fst_foldl_bump (ds : List Detection) :
    ∀ acc : List (String × Nat),
      (ds.foldl (fun a d => bumpCount a d.type) acc).map Prod.fst
        = (ds.map Detection.type).foldl
            (fun ks t => if t ∈ ks then ks else ks ++ [t]) (acc.map Prod.fst) := by
  induction ds with
  | nil => intro acc; rfl
  | cons d ds ih =>
    intro acc
    simp only [List.foldl_cons, List.map_cons]
    rw [ih (bumpCount acc d.type), map_fst_bumpCount]

theorem map_fst_countsOf (ds : List Detection) :
    (countsOf ds).map Prod.fst = firstSeen (ds.map Detection.type) :=
  map_fst_foldl_bump ds []

theorem mem_firstSeen_aux (l : List String) :
    ∀ acc x, x ∈ l.foldl (fun ks t => if t ∈ ks then ks else ks ++ [t]) acc →
      x ∈ acc ∨ x ∈ l := by
  induction l with
  | nil => intro acc x hx; exact Or.inl hx
  | cons t ts ih =>
    intro acc x hx
    simp only [List.foldl_cons] at hx
    rcases ih _ x hx with h1 | h2
    · by_cases hm : t ∈ acc
      · rw [if_pos hm] at h1
        exact Or.inl h1
      · rw [if_neg hm] at h1
        rcases List.mem_append.mp h1 with ha | hb
        · exact Or.inl ha
        · simp only [List.mem_singleton] at hb
          subst hb
          exact Or.inr (List.mem_cons_self x ts)
    · exact Or.inr (List.mem_cons_of_mem t h2)

theorem mem_firstSeen (l : List String) (x : String) (h : x ∈ firstSeen l) :
    x ∈ l := by
  rcases mem_firstSeen_aux l [] x h with h1 | h2
  · simp at h1
  · exact h2

theorem sum_bumpCount (acc : List (String × Nat)) (t : String) :
    ((bumpCount acc t).map Prod.snd).sum = ((acc.map Prod.snd)).sum + 1 := by
  induction acc with
  | nil => simp [bumpCount]
  | cons p rest ih =>
    obtain ⟨k, c⟩ := p
    by_cases hk : k = t
    · subst hk
      simp [bumpCount]
      omega
    · simp only [bumpCount, if_neg hk, List.map_cons, List.sum_cons]
      rw [ih]
      omega

theorem sum_countsOf_aux (ds : List Detection) :
    ∀ acc, ((ds.foldl (fun a d => bumpCount a d.type) acc).map Prod.snd).sum
      = ((acc.map Prod.snd)).sum + ds.length := by
  induction ds with
  | nil => intro acc; simp
  | cons d t ih =>
    intro acc
    simp only [List.foldl_cons, List.length_cons]
    rw [ih, sum_bumpCount]
    omega

theorem lookupCount_bumpCount (acc : List (String × Nat)) (s t : String) :
    lookupCount t (bumpCount acc s)
      = lookupCount t acc + (if s = t then 1 else 0) := by
  induction acc with
  | nil =>
    by_cases hst : s = t <;> simp [bumpCount, lookupCount, hst]
  | cons p rest ih =>
    obtain ⟨k, c⟩ := p
    by_cases hks : k = s
    · subst hks
      by_cases hkt : k = t <;> simp [bumpCount, lookupCount, hkt]
    · by_cases hkt : k = t
      · have hst : ¬ s = t := fun he => hks (hkt.trans he.symm)
        have hts : ¬ t = s := fun he => hst he.symm
        simp [bumpCount, lookupCount, hks, hkt, hst, hts]
      · simp [bumpCount, lookupCount, hks, hkt, ih]

theorem lookupCount_countsOf_aux (t : String) (ds : List Detection) :
    ∀ acc, lookupCount t (ds.foldl (fun a d => bumpCount a d.type) acc)
      = lookupCount t acc + ds.countP (fun d => d.type == t) := by
  induction ds with
  | nil => intro acc; simp
  | cons d ds ih =>
    intro acc
    simp only [List.foldl_cons, List.countP_cons]
    rw [ih, lookupCount_bumpCount]
    by_cases hdt : d.type = t <;> simp [hdt] <;> omega

theorem countsOf_confidence_aux (ds : List Detection) (f : Detection → Float) :
    ∀ acc, ((ds.map fun d => { d with confidence := f d }).foldl
        (fun a d => bumpCount a d.type) acc)
      = ds.foldl (fun a d => bumpCount a d.type) acc := by
  induction ds with
  | nil => intro acc; rfl
  | cons d ds ih =>
    intro acc
    simp only [List.map_cons, List.foldl_cons]
    exact ih (bumpCount acc d.type)

/-! ### Report Loader helper lemmas -/

theorem loadReport_fail_eq (fetch : ReportFetch) (st : AppState)
    (h : fetch.isFailure = true) : loadReport fetch st = reportFailureView st := by
  cases fetch with
  | networkError m => rfl
  | response ok body =>
    cases ok with
    | false => cases body <;> rfl
    | true =>
      cases body with
      | error msg => rfl
      | ok entries => simp [ReportFetch.isFailure] at h

theorem loadReport_keeps (fetch : ReportFetch) (st : AppState) :
    (loadReport fetch st).uploadStatus = st.uploadStatus ∧
    (loadReport fetch st).fileValue = st.fileValue := by
  cases fetch with
  | networkError m => exact ⟨rfl, rfl⟩
  | response ok body => cases ok <;> cases body <;> exact ⟨rfl, rfl⟩

theorem flatMapGuard_length (entries : List ReportEntry) :
    (entries.flatMap fun entry =>
        if entry.detections.isEmpty then []
        else entry.detections.map (mkRow entry)).length
      = (entries.map fun e => e.detections.length).sum := by
  induction entries with
  | nil => rfl
  | cons e es ih =>
    simp only [List.flatMap_cons, List.map_cons, List.sum_cons,
      List.length_append, ih]
    by_cases hd : e.detections.isEmpty
    · have h0 : e.detections = [] := by simpa [List.isEmpty_iff] using hd
      rw [if_pos hd, h0]
      simp
    · rw [if_neg hd]
      simp

/-! ## Claim theorems -/

/-- C1, counterexample: on `filePath = "abc"` (non-empty, whose final
segment has no dot) and `page = 1`, the code produces an EMPTY stem
(`.../_001.png`), not the whole segment (`.../abc_001.png`) that the claim
prescribes for dotless segments. -/
theorem buildImagePath_whole_segment_cex :
    buildImagePath "abc" 1 = "/out/redacted_images/_001.png" ∧
    claimImagePathC1 "abc" 1 = "/out/redacted_images/abc_001.png" ∧
    buildImagePath "abc" 1 ≠ claimImagePathC1 "abc" 1 :=
  ⟨by decide, by decide, by decide⟩

/-- C1, amended: for every non-empty `filePath` and integer `page` in
[0, 999], `buildImagePath` is total and returns
`<imageRoot>/<stem>_<paddedPage>.png` where `paddedPage` is `page`
zero-padded to 3 digits, and the stem is the final `/`-separated segment
with exactly its last `.`-extension removed when the segment contains a
dot (the segment decomposes as `stem ++ "." ++ ext` with dot-free `ext`,
so dots before the last one are preserved), and the EMPTY string when the
segment contains no dot. -/
theorem buildImagePath_spec (filePath : String) (page : Nat)
    (hne : filePath ≠ "") (hpage : page ≤ 999) :
    buildImagePath filePath page
      = IMAGE_ROOT ++ "/" ++ stemOf filePath ++ "_" ++ zeroPad3 page ++ ".png" ∧
    ('.' ∉ (lastSegment filePath).data → stemOf filePath = "") ∧
    ('.' ∈ (lastSegment filePath).data →
      lastSegment filePath = stemOf filePath ++ "." ++ lastExt filePath ∧
      '.' ∉ (lastExt filePath).data) := by
  refine ⟨?_, fun h => stemOf_no_dot filePath h, fun h => stemOf_decomp filePath h⟩
  unfold buildImagePath
  rw [formatPage_eq_zeroPad3 page hpage]

/-- C1 witness: Scenario B's input `("a/inv.pdf", 1)`. -/
theorem buildImagePath_spec_witness :
    ("a/inv.pdf" : String) ≠ "" ∧ (1 : Nat) ≤ 999 ∧
    (buildImagePath "a/inv.pdf" 1
        = IMAGE_ROOT ++ "/" ++ stemOf "a/inv.pdf" ++ "_" ++ zeroPad3 1 ++ ".png" ∧
      ('.' ∉ (lastSegment "a/inv.pdf").data → stemOf "a/inv.pdf" = "") ∧
      ('.' ∈ (lastSegment "a/inv.pdf").data →
        lastSegment "a/inv.pdf"
          = stemOf "a/inv.pdf" ++ "." ++ lastExt "a/inv.pdf" ∧
        '.' ∉ (lastExt "a/inv.pdf").data)) :=
  ⟨by decide, by decide, buildImagePath_spec "a/inv.pdf" 1 (by decide) (by decide)⟩

/-- C10: for every `page ≥ 1000`, `formatPage` stays total, `padStart` is
a no-op (the numeral already has at least 4 digits), and the derived path
widens the page field: `<imageRoot>/<stem>_<page>.png`. -/
theorem formatPage_overflow_spec (filePath : String) (page : Nat)
    (h : 1000 ≤ page) :
    formatPage page = decStr page ∧ 4 ≤ (decStr page).length ∧
    buildImagePath filePath page
      = IMAGE_ROOT ++ "/" ++ stemOf filePath ++ "_" ++ decStr page ++ ".png" := by
  have h4 : 4 ≤ (decStr page).length := by
    have p3 : (10 : Nat) ^ 3 = 1000 := by norm_num
    have h1000 : (10 : Nat) ^ 3 ≤ page := by omega
    have := length_decStr_lower 3 page h1000
    omega
  have hfp : formatPage page = decStr page := by
    unfold formatPage padStart3Zero
    rw [if_pos (by omega)]
  refine ⟨hfp, h4, ?_⟩
  unfold buildImagePath
  rw [hfp]

/-- C10 witness: `page = 1234`. -/
theorem formatPage_overflow_witness :
    (1000 : Nat) ≤ 1234 ∧
    (formatPage 1234 = decStr 1234 ∧ 4 ≤ (decStr 1234).length ∧
      buildImagePath "a/inv.pdf" 1234
        = IMAGE_ROOT ++ "/" ++ stemOf "a/inv.pdf" ++ "_" ++ decStr 1234 ++ ".png") :=
  ⟨by decide, formatPage_overflow_spec "a/inv.pdf" 1234 (by decide)⟩

/-- C2, counterexample: a non-success upload response whose body cannot be
parsed makes `response.json()` reject; the catch-all then displays the
parse exception's own message, not the claimed generic
"Error: Upload failed" (no reload is triggered either way). -/
theorem upload_parse_failure_cex :
    (uploadSubmit ["inv.pdf"]
        (.response false (.error "Unexpected end of JSON input"))
        (.networkError "net") sampleState).state.uploadStatus
      = "Error: Unexpected end of JSON input" ∧
    (uploadSubmit ["inv.pdf"]
        (.response false (.error "Unexpected end of JSON input"))
        (.networkError "net") sampleState).state.uploadStatus
      ≠ "Error: Upload failed" ∧
    (uploadSubmit ["inv.pdf"]
        (.response false (.error "Unexpected end of JSON input"))
        (.networkError "net") sampleState).reloads = 0 :=
  ⟨rfl, by decide, rfl⟩

/-- C2, amended: on a non-success HTTP status, a parsed body with a
non-empty `error` field yields "Error: <message>"; a parsed body whose
`error` field is absent or empty yields exactly "Error: Upload failed"; an
unparseable body yields "Error: <m>" where `m` is the parse failure's own
message; and in every such case no reload is triggered and the report
regions and file selection are left unchanged. -/
theorem uploadSubmit_http_failure_spec (files : List String)
    (reload : ReportFetch) (st : AppState) (hf : files ≠ []) :
    (∀ (d : UploadBody) (m : String), d.error = some m → m ≠ "" →
      (uploadSubmit files (.response false (.ok d)) reload st).state.uploadStatus
        = "Error: " ++ m) ∧
    (∀ d : UploadBody, d.error = none ∨ d.error = some "" →
      (uploadSubmit files (.response false (.ok d)) reload st).state.uploadStatus
        = "Error: Upload failed") ∧
    (∀ m : String,
      (uploadSubmit files (.response false (.error m)) reload st).state.uploadStatus
        = "Error: " ++ m) ∧
    (∀ body : Except String UploadBody,
      (uploadSubmit files (.response false body) reload st).reloads = 0 ∧
      (uploadSubmit files (.response false body) reload st).state.gallery
        = st.gallery ∧
      (uploadSubmit files (.response false body) reload st).state.detections
        = st.detections ∧
      (uploadSubmit files (.response false body) reload st).state.summary
        = st.summary ∧
      (uploadSubmit files (.response false body) reload st).state.fileValue
        = st.fileValue) := by
  obtain ⟨f, fs, rfl⟩ : ∃ f fs, files = f :: fs := by
    cases files with
    | nil => exact absurd rfl hf
    | cons f fs => exact ⟨f, fs, rfl⟩
  refine ⟨?_, ?_, ?_, ?_⟩
  · intro d m hm hne
    simp [uploadSubmit, jsOr, hm, hne]
  · intro d hd
    rcases hd with hd | hd <;> simp [uploadSubmit, jsOr, hd]
  · intro m
    simp [uploadSubmit]
  · intro body
    cases body <;> exact ⟨rfl, rfl, rfl, rfl, rfl⟩

/-- C2 witness: Scenario F, HTTP 400 with body
`{"error":"unsupported file type"}`. -/
theorem uploadSubmit_http_failure_witness :
    (["inv.pdf"] : List String) ≠ [] ∧
    (uploadSubmit ["inv.pdf"]
        (.response false (.ok { error := some "unsupported file type" }))
        (.networkError "net") sampleState).state.uploadStatus
      = "Error: unsupported file type" :=
  ⟨by decide,
    (uploadSubmit_http_failure_spec ["inv.pdf"] (.networkError "net")
        sampleState (by decide)).1
      { error := some "unsupported file type" } "unsupported file type" rfl
      (by decide)⟩

/-- C3, counterexample: with detection types `["B", "2"]`, the pills come
out as `["2: 1", "B: 1"]` — the numeric type string "2" is hoisted to the
front by JS object key ordering — while first-seen order would be
`["B: 1", "2: 1"]` (which is `(countsOf cexDets).map pillText`, since
`countsOf` is insertion-ordered). -/
theorem renderSummary_order_cex :
    renderSummary cexDets [] = ["2: 1", "B: 1"] ∧
    firstSeen (cexDets.map Detection.type) = ["B", "2"] ∧
    renderSummary cexDets [] ≠ (countsOf cexDets).map pillText :=
  ⟨by decide, by decide, by decide⟩

/-- C3, amended: the pills render one per type with its count, in
first-seen order of the flattened detection stream, PROVIDED no type
string is a canonical array-index numeral (such types are instead hoisted
to the front in ascending numeric order by JS object key semantics). -/
theorem renderSummary_first_seen_spec (dets : List Detection)
    (prior : List String) (h : ∀ d ∈ dets, isArrayIndex d.type = false) :
    renderSummary dets prior = (countsOf dets).map pillText ∧
    (countsOf dets).map Prod.fst = firstSeen (dets.map Detection.type) := by
  have hfs : (countsOf dets).map Prod.fst = firstSeen (dets.map Detection.type) :=
    map_fst_countsOf dets
  refine ⟨?_, hfs⟩
  have hkeys : ∀ p ∈ countsOf dets, isArrayIndex p.1 = false := by
    intro p hp
    have h1 : p.1 ∈ (countsOf dets).map Prod.fst := List.mem_map_of_mem Prod.fst hp
    rw [hfs] at h1
    obtain ⟨q, hq, hqt⟩ := List.mem_map.mp (mem_firstSeen _ _ h1)
    exact hqt ▸ h q hq
  have hidx : (countsOf dets).filter (fun p => isArrayIndex p.1) = [] := by
    rw [List.filter_eq_nil_iff]
    intro p hp
    simp [hkeys p hp]
  have hrest : (countsOf dets).filter (fun p => !isArrayIndex p.1) = countsOf dets := by
    rw [List.filter_eq_self]
    intro p hp
    simp [hkeys p hp]
  unfold renderSummary
  by_cases hde : dets.isEmpty = true
  · rw [if_pos hde]
    have h0 : dets = [] := by simpa [List.isEmpty_iff] using hde
    subst h0
    rfl
  · rw [if_neg hde]
    unfold jsObjectEntries
    rw [hidx, hrest]
    rfl

/-- C3 witness: Scenario C's stream EMAIL, EMAIL, SSN gives exactly the
pills "EMAIL: 2" then "SSN: 1". -/
theorem renderSummary_first_seen_witness :
    (∀ d ∈ scenarioCDets, isArrayIndex d.type = false) ∧
    (renderSummary scenarioCDets [] = (countsOf scenarioCDets).map pillText ∧
      (countsOf scenarioCDets).map Prod.fst
        = firstSeen (scenarioCDets.map Detection.type)) ∧
    renderSummary scenarioCDets [] = ["EMAIL: 2", "SSN: 1"] :=
  ⟨by decide, renderSummary_first_seen_spec scenarioCDets [] (by decide),
    by decide⟩

/-- C4: on a successful upload whose body carries a page count `N`, the
status line becomes "Processed <N> page(s).", the file selection is
cleared, the Report Loader is invoked exactly once, and — the reload
outcome being arbitrary — the status line keeps reporting success even
when the reload fails, the failure surfacing only through the loader's own
error rendering. -/
theorem uploadSubmit_success_spec (files : List String) (d : UploadBody)
    (N : Nat) (reload : ReportFetch) (st : AppState)
    (hf : files ≠ []) (hp : d.pages = some N) :
    (uploadSubmit files (.response true (.ok d)) reload st).state.uploadStatus
      = "Processed " ++ decStr N ++ " page(s)." ∧
    (uploadSubmit files (.response true (.ok d)) reload st).state.fileValue
      = "" ∧
    (uploadSubmit files (.response true (.ok d)) reload st).reloads = 1 ∧
    (reload.isFailure = true →
      (uploadSubmit files (.response true (.ok d)) reload st).state.gallery
        = Region.message "Unable to load report. Upload invoices to start." ∧
      (uploadSubmit files (.response true (.ok d)) reload st).state.detections
        = Region.message "Report not available." ∧
      (uploadSubmit files (.response true (.ok d)) reload st).state.summary
        = []) := by
  obtain ⟨f, fs, rfl⟩ : ∃ f fs, files = f :: fs := by
    cases files with
    | nil => exact absurd rfl hf
    | cons f fs => exact ⟨f, fs, rfl⟩
  have hred : uploadSubmit (f :: fs) (.response true (.ok d)) reload st
      = ⟨loadReport reload
          { st with
              uploadStatus := "Processed " ++ pagesText d.pages ++ " page(s).",
              fileValue := "" }, 1, 1⟩ := rfl
  refine ⟨?_, ?_, ?_, ?_⟩
  · rw [hred]
    have h1 := (loadReport_keeps reload
      { st with
          uploadStatus := "Processed " ++ pagesText d.pages ++ " page(s).",
          fileValue := "" }).1
    rw [h1, hp]
    rfl
  · rw [hred]
    exact (loadReport_keeps reload _).2
  · rw [hred]
  · intro hfail
    rw [hred]
    have h2 := loadReport_fail_eq reload
      { st with
          uploadStatus := "Processed " ++ pagesText d.pages ++ " page(s).",
          fileValue := "" } hfail
    rw [h2]
    exact ⟨rfl, rfl, rfl⟩

/-- C4 witness: a 7-page upload followed by a failing reload. -/
theorem uploadSubmit_success_witness :
    (["inv.pdf"] : List String) ≠ [] ∧
    ({ pages := some 7 } : UploadBody).pages = some 7 ∧
    ((uploadSubmit ["inv.pdf"] (.response true (.ok { pages := some 7 }))
        (.networkError "net") sampleState).state.uploadStatus
      = "Processed " ++ decStr 7 ++ " page(s)." ∧
    (uploadSubmit ["inv.pdf"] (.response true (.ok { pages := some 7 }))
        (.networkError "net") sampleState).state.fileValue = "" ∧
    (uploadSubmit ["inv.pdf"] (.response true (.ok { pages := some 7 }))
        (.networkError "net") sampleState).reloads = 1 ∧
    ((ReportFetch.networkError "net").isFailure = true →
      (uploadSubmit ["inv.pdf"] (.response true (.ok { pages := some 7 }))
          (.networkError "net") sampleState).state.gallery
        = Region.message "Unable to load report. Upload invoices to start." ∧
      (uploadSubmit ["inv.pdf"] (.response true (.ok { pages := some 7 }))
          (.networkError "net") sampleState).state.detections
        = Region.message "Report not available." ∧
      (uploadSubmit ["inv.pdf"] (.response true (.ok { pages := some 7 }))
          (.networkError "net") sampleState).state.summary = [])) :=
  ⟨by decide, rfl,
    uploadSubmit_success_spec ["inv.pdf"] { pages := some 7 } 7
      (.networkError "net") sampleState (by decide) rfl⟩

/-- C5: every failing report-load attempt — network error, non-success
HTTP status, or malformed body — ends in exactly the Error state: the
fixed gallery and detections placeholders, a cleared summary, and nothing
else changed (no partial rendering of that attempt's data). -/
theorem loadReport_failure_spec (fetch : ReportFetch) (st : AppState)
    (h : fetch.isFailure = true) :
    loadReport fetch st = reportFailureView st :=
  loadReport_fail_eq fetch st h

/-- C5 witness: an HTTP 500-style response (non-success status) on the
sample state. -/
theorem loadReport_failure_witness :
    (ReportFetch.response false (.ok [])).isFailure = true ∧
    loadReport (.response false (.ok [])) sampleState
      = reportFailureView sampleState :=
  ⟨rfl, loadReport_failure_spec (.response false (.ok [])) sampleState rfl⟩

/-- C6: the transformer yields exactly one gallery card per entry
(including entries with zero detections), and the number of detection rows
rendered equals the total number of detections across all entries — no
row is dropped. -/
theorem transformer_shape_spec (entries : List ReportEntry)
    (prior : Region Row) :
    (entriesToPages entries).length = entries.length ∧
    rowCount (renderDetections entries prior)
      = (entries.map fun e => e.detections.length).sum := by
  constructor
  · simp [entriesToPages]
  · cases entries with
    | nil => rfl
    | cons e es =>
      rw [← flatMapGuard_length (e :: es)]
      simp only [renderDetections, List.isEmpty_cons, Bool.false_eq_true,
        if_false]
      by_cases h : ((e :: es).flatMap fun entry =>
          if entry.detections.isEmpty then []
          else entry.detections.map (mkRow entry)).isEmpty
      · rw [if_pos h]
        have h0 : ((e :: es).flatMap fun entry =>
            if entry.detections.isEmpty then []
            else entry.detections.map (mkRow entry)) = [] := by
          simpa [List.isEmpty_iff] using h
        rw [h0]
        rfl
      · rw [if_neg h]
        rfl

/-- C7: the summary counts are complete and confidence-blind: the values
sum to the total number of detections across all entries, each type's
count is the number of detections of that type in the flattened stream,
and rewriting every confidence leaves the counts unchanged. -/
theorem summary_counts_spec (entries : List ReportEntry) :
    ((countsOf (entries.flatMap fun e => e.detections)).map Prod.snd).sum
        = (entries.flatMap fun e => e.detections).length ∧
    (∀ t, lookupCount t (countsOf (entries.flatMap fun e => e.detections))
        = (entries.flatMap fun e => e.detections).countP
            (fun d => d.type == t)) ∧
    (∀ f : Detection → Float,
      countsOf ((entries.flatMap fun e => e.detections).map
          fun d => { d with confidence := f d })
        = countsOf (entries.flatMap fun e => e.detections)) := by
  refine ⟨?_, ?_, ?_⟩
  · have h := sum_countsOf_aux (entries.flatMap fun e => e.detections) []
    simpa [countsOf] using h
  · intro t
    have h := lookupCount_countsOf_aux t (entries.flatMap fun e => e.detections) []
    simpa [countsOf, lookupCount] using h
  · intro f
    exact countsOf_confidence_aux (entries.flatMap fun e => e.detections) f []

/-- C8: submitting with no file selected sets the status line to exactly
"Please select a file to upload." and stops: zero upload POSTs, zero
reloads, and every other piece of state untouched. -/
theorem uploadSubmit_no_file_spec (fetch : UploadFetch) (reload : ReportFetch)
    (st : AppState) :
    uploadSubmit [] fetch reload st
      = ⟨{ st with uploadStatus := "Please select a file to upload." }, 0, 0⟩ :=
  rfl

/-- C9: each render operation clears its region before painting, so its
result is independent of the prior content: rendering the same view model
twice leaves the region exactly as rendering it once. -/
theorem render_idempotent_spec (cards : List Card)
    (entries : List ReportEntry) (dets : List Detection)
    (g : Region Card) (r : Region Row) (s : List String) :
    renderGallery cards (renderGallery cards g) = renderGallery cards g ∧
    renderDetections entries (renderDetections entries r)
      = renderDetections entries r ∧
    renderSummary dets (renderSummary dets s) = renderSummary dets s :=
  ⟨rfl, rfl, rfl⟩
